import Mathlib

/-!
Shallow embedding of `src/config.rs` from the sekursranko repository.

The embedding covers:
* the configuration data model `ServerConfig` and the public projection
  `ServerConfigPublic` (with `impl From<&ServerConfig> for ServerConfigPublic`
  embedded as `ServerConfigPublic.fromConfig`);
* the loader `ServerConfig::from_file`, with the filesystem modelled as a
  map from path strings to an abstract `PathState` recording the results of
  the `exists()` check, the `is_file()` check, `File::open` and
  `read_to_string`;
* the `toml::from_str` deserialization into `ServerConfig`, embedded as an
  executable parser for the flat key-value TOML subset used by the
  configuration format (bare keys, integer / basic-string / boolean values,
  comments, duplicate-key rejection), followed by a serde-style typed field
  extraction with the integer range checks of `u64` / `u32` / 64-bit `usize`;
* the error messages built by `from_file`, together with a classifier that
  assigns each message one of the four documented error kinds.

Machine integers are modelled as `Nat` / `Int` with explicit range checks at
the points where the Rust code (the `toml` lexer and serde's integer
visitors) performs them.
-/

namespace Sekursranko

/-- The server configuration (Rust struct `ServerConfig`): `max_backup_bytes`
is a `u64`, `retention_days` a `u32`, `backup_dir` a `PathBuf` (modelled as
the path string) and `io_threads` a `usize`.  The numeric fields are `Nat`s;
the range invariants are enforced by the deserializer below, exactly as the
typed serde deserialization enforces them in the Rust code. -/
structure ServerConfig where
  max_backup_bytes : Nat
  retention_days : Nat
  backup_dir : String
  io_threads : Nat
deriving DecidableEq, Repr

/-- The public part of the server configuration (Rust struct
`ServerConfigPublic`): only `max_backup_bytes` and `retention_days`. -/
structure ServerConfigPublic where
  max_backup_bytes : Nat
  retention_days : Nat
deriving DecidableEq, Repr

/-- `impl From<&ServerConfig> for ServerConfigPublic`: copy the two public
fields, drop `backup_dir` and `io_threads`.  (`from` is a Lean keyword, so
the embedding names it `fromConfig`.) -/
def ServerConfigPublic.fromConfig (other : ServerConfig) : ServerConfigPublic :=
  { max_backup_bytes := other.max_backup_bytes
    retention_days := other.retention_days }

/-- A TOML value of the flat subset used by the configuration format:
integers, basic strings and booleans. -/
inductive TomlValue where
  | int : Int → TomlValue
  | str : String → TomlValue
  | bool : Bool → TomlValue
deriving DecidableEq, Repr

/-- TOML inline whitespace: space and horizontal tab. -/
def isWs (c : Char) : Bool := c == ' ' || c == '\t'

/-- Split a character list at newline characters. -/
def splitLinesAux : List Char → List Char → List (List Char)
  | [], acc => [acc.reverse]
  | c :: rest, acc =>
    if c = '\n' then acc.reverse :: splitLinesAux rest []
    else splitLinesAux rest (c :: acc)

/-- Split a source text (as characters) into its lines. -/
def splitLines (cs : List Char) : List (List Char) := splitLinesAux cs []

/-- Characters allowed in a TOML bare key. -/
def isBareKeyChar (c : Char) : Bool := c.isAlphanum || c == '_' || c == '-'

/-- Accumulate a decimal digit string into a number; `none` on a non-digit. -/
def digitsToNatAux : List Char → Nat → Option Nat
  | [], acc => some acc
  | c :: rest, acc =>
    if c.isDigit then digitsToNatAux rest (acc * 10 + (c.toNat - 48))
    else none

/-- Parse an integer token (optional sign, decimal digits); the `toml` lexer
parses integers through `i64`, so values outside the signed 64-bit range are
rejected at this stage. -/
def parseIntToken (tok : List Char) : Except String Int :=
  let sds : Bool × List Char :=
    match tok with
    | '-' :: rest => (true, rest)
    | '+' :: rest => (false, rest)
    | _ => (false, tok)
  match sds.2, digitsToNatAux sds.2 0 with
  | [], _ => .error "invalid integer"
  | _ :: _, none => .error "invalid integer"
  | _ :: _, some n =>
    let v : Int := if sds.1 then -(n : Int) else (n : Int)
    if v < -(2 ^ 63 : Int) || (2 ^ 63 : Int) ≤ v then .error "integer out of range for i64"
    else .ok v

/-- Resolve a basic-string escape character. -/
def escChar (c : Char) : Option Char :=
  if c = '"' then some '"'
  else if c = '\\' then some '\\'
  else if c = 'n' then some '\n'
  else if c = 't' then some '\t'
  else if c = 'r' then some '\r'
  else none

/-- Parse the body of a basic string after the opening quote, returning the
string contents and the remainder after the closing quote. -/
def parseStrBody : List Char → Except String (List Char × List Char)
  | [] => .error "unterminated string"
  | '"' :: rest => .ok ([], rest)
  | '\\' :: [] => .error "unterminated escape"
  | '\\' :: e :: rest =>
    match escChar e with
    | none => .error "invalid escape"
    | some ec =>
      match parseStrBody rest with
      | .error msg => .error msg
      | .ok (body, r) => .ok (ec :: body, r)
  | c :: rest =>
    match parseStrBody rest with
    | .error msg => .error msg
    | .ok (body, r) => .ok (c :: body, r)

/-- After a value, only whitespace optionally followed by a comment may
remain on the line. -/
def restOk (cs : List Char) : Bool :=
  match cs.dropWhile isWs with
  | [] => true
  | c :: _ => c == '#'

/-- A character ending an unquoted value token. -/
def tokenEnd (c : Char) : Bool := isWs c || c == '#'

/-- Parse a TOML value (basic string, boolean, or integer) and check that
nothing but whitespace / a comment follows it. -/
def parseValue (cs : List Char) : Except String TomlValue :=
  match cs with
  | '"' :: rest =>
    match parseStrBody rest with
    | .error e => .error e
    | .ok (body, r) =>
      if restOk r then .ok (.str (String.mk body))
      else .error "unexpected characters after value"
  | _ =>
    let tok := cs.takeWhile (fun c => !(tokenEnd c))
    let rest := cs.dropWhile (fun c => !(tokenEnd c))
    if !(restOk rest) then .error "unexpected characters after value"
    else if tok = "true".data then .ok (.bool true)
    else if tok = "false".data then .ok (.bool false)
    else
      match parseIntToken tok with
      | .error e => .error e
      | .ok n => .ok (.int n)

/-- Parse one line: `none` for a blank or comment line, otherwise a
`key = value` binding. -/
def parseLine (l : List Char) : Except String (Option (String × TomlValue)) :=
  match l.dropWhile isWs with
  | [] => .ok none
  | c :: rest =>
    if c = '#' then .ok none
    else
      let t := c :: rest
      let key := t.takeWhile isBareKeyChar
      let afterKey := (t.dropWhile isBareKeyChar).dropWhile isWs
      if key = [] then .error "expected a key"
      else
        match afterKey with
        | '=' :: vrest =>
          match parseValue (vrest.dropWhile isWs) with
          | .error e => .error e
          | .ok v => .ok (some (String.mk key, v))
        | _ => .error "expected an equals sign"

/-- Look a key up in a parsed table (first binding wins; the parser rejects
duplicates, so parsed tables bind each key at most once). -/
def tblLookup (k : String) : List (String × TomlValue) → Option TomlValue
  | [] => none
  | (k', v) :: rest => if k' = k then some v else tblLookup k rest

/-- Fold the parsed lines into a key-value table, rejecting duplicate keys
as the TOML grammar does. -/
def buildTable : List (List Char) → List (String × TomlValue) →
    Except String (List (String × TomlValue))
  | [], acc => .ok acc.reverse
  | l :: ls, acc =>
    match parseLine l with
    | .error e => .error e
    | .ok none => buildTable ls acc
    | .ok (some (k, v)) =>
      if (tblLookup k acc).isSome then .error ("duplicate key: " ++ k)
      else buildTable ls ((k, v) :: acc)

/-- Parse a configuration source text into a key-value table. -/
def parseToml (s : String) : Except String (List (String × TomlValue)) :=
  buildTable (splitLines s.data) []

/-- Serde-style extraction of an unsigned integer field: the field must be
present, must be an integer, and must lie in `[0, bound)`; `bound` is
`2 ^ 64` for `u64` and 64-bit `usize`, `2 ^ 32` for `u32`.  Out-of-range
values are rejected, never truncated. -/
def getNatField (name : String) (bound : Int) (tbl : List (String × TomlValue)) :
    Except String Nat :=
  match tblLookup name tbl with
  | none => .error ("missing field " ++ name)
  | some (.int n) =>
    if 0 ≤ n ∧ n < bound then .ok n.toNat
    else .error ("invalid value for field " ++ name ++ ": integer out of range")
  | some _ => .error ("invalid type for field " ++ name)

/-- Serde-style extraction of a string field. -/
def getStrField (name : String) (tbl : List (String × TomlValue)) :
    Except String String :=
  match tblLookup name tbl with
  | none => .error ("missing field " ++ name)
  | some (.str s) => .ok s
  | some _ => .error ("invalid type for field " ++ name)

/-- Deserialize a parsed table into a `ServerConfig`: all four fields are
mandatory and typed; keys other than the four are ignored, exactly as
serde's derived deserializer (without `deny_unknown_fields`) ignores them. -/
def deserializeConfig (tbl : List (String × TomlValue)) : Except String ServerConfig :=
  match getNatField "max_backup_bytes" (2 ^ 64 : Int) tbl with
  | .error e => .error e
  | .ok mb =>
    match getNatField "retention_days" (2 ^ 32 : Int) tbl with
    | .error e => .error e
    | .ok rd =>
      match getStrField "backup_dir" tbl with
      | .error e => .error e
      | .ok bd =>
        match getNatField "io_threads" (2 ^ 64 : Int) tbl with
        | .error e => .error e
        | .ok io_t =>
          .ok { max_backup_bytes := mb, retention_days := rd,
                backup_dir := bd, io_threads := io_t }

/-- `toml::from_str::<ServerConfig>`: parse the text, then deserialize. -/
def toml_from_str (s : String) : Except String ServerConfig :=
  match parseToml s with
  | .error e => .error e
  | .ok tbl => deserializeConfig tbl

/-- The state of one filesystem path as observed by `from_file`: the result
of the `Path::exists()` check, of the `Path::is_file()` check, of
`File::open` and of `read_to_string`.  The fields are independent, so states
where several failure conditions hold simultaneously are representable. -/
structure PathState where
  path_exists : Bool
  is_file : Bool
  openResult : Except String Unit
  readResult : Except String String

/-- Escape one character the way the Rust `Debug` formatter for paths
escapes the characters of a valid-UTF-8 path (quote, backslash and the
common control characters; other characters print as themselves). -/
def escapeDebugChar (c : Char) : List Char :=
  if c = '"' then ['\\', '"']
  else if c = '\\' then ['\\', '\\']
  else if c = '\n' then ['\\', 'n']
  else if c = '\t' then ['\\', 't']
  else if c = '\r' then ['\\', 'r']
  else [c]

/-- The `{:?}` (debug) rendering of a path: the path string escaped and
wrapped in double quotes. -/
def pathDebug (p : String) : String :=
  "\"" ++ String.mk ((p.data.map escapeDebugChar).flatten) ++ "\""

/-- The `NotFound` message built by `from_file`. -/
def msgNotFound (p : String) : String :=
  "Config file at " ++ pathDebug p ++ " does not exist"

/-- The `NotAFile` message built by `from_file`. -/
def msgNotAFile (p : String) : String :=
  "Config file at " ++ pathDebug p ++ " is not a file"

/-- The open-failure message built by `from_file`. -/
def msgIoOpen (e : String) : String := "Could not open config file: " ++ e

/-- The read-failure message built by `from_file`. -/
def msgIoRead (e : String) : String := "Could not read config file: " ++ e

/-- The deserialization-failure message built by `from_file`. -/
def msgParse (e : String) : String := "Could not deserialize config file: " ++ e

/-- `ServerConfig::from_file`: check existence, then regular-file-ness, then
open, then read, then deserialize — in that order, stopping at the first
failure.  `fs` is the ambient filesystem, mapping each path to its state. -/
def ServerConfig.from_file (fs : String → PathState) (config_path : String) :
    Except String ServerConfig :=
  if !(fs config_path).path_exists then .error (msgNotFound config_path)
  else if !(fs config_path).is_file then .error (msgNotAFile config_path)
  else
    match (fs config_path).openResult with
    | .error e => .error (msgIoOpen e)
    | .ok _ =>
      match (fs config_path).readResult with
      | .error e => .error (msgIoRead e)
      | .ok contents =>
        match toml_from_str contents with
        | .error e => .error (msgParse e)
        | .ok config => .ok config

/-- The four documented error kinds of the loader. -/
inductive ConfigErrorKind where
  | notFound
  | notAFile
  | ioError
  | parseError
deriving DecidableEq, Repr

/-- `hasPre p cs` holds when the character list `cs` starts with `p`. -/
def hasPre : List Char → List Char → Bool
  | [], _ => true
  | _ :: _, [] => false
  | p :: ps, c :: cs => if p = c then hasPre ps cs else false

/-- `hasSuf p cs` holds when the character list `cs` ends with `p`. -/
def hasSuf (p cs : List Char) : Bool := hasPre p.reverse cs.reverse

/-- Classify an error message of `from_file` into one of the four error
kinds, by the fixed message formats the loader uses.  The open-failure and
read-failure formats are both `ioError`. -/
def classify (e : String) : Option ConfigErrorKind :=
  if hasPre "Could not open config file: ".data e.data then some .ioError
  else if hasPre "Could not read config file: ".data e.data then some .ioError
  else if hasPre "Could not deserialize config file: ".data e.data then some .parseError
  else if hasPre "Config file at ".data e.data && hasSuf " does not exist".data e.data then
    some .notFound
  else if hasPre "Config file at ".data e.data && hasSuf " is not a file".data e.data then
    some .notAFile
  else none

/-- Substring containment, on the underlying character lists. -/
def strContains (a b : String) : Prop :=
  ∃ x y : List Char, a.data = x ++ b.data ++ y

/-- Reversed decimal digits of a positive number, with explicit fuel so the
definition is structurally recursive. -/
def toDigitsRev (fuel n : Nat) : List Char :=
  match fuel with
  | 0 => []
  | f + 1 =>
    if n = 0 then []
    else Char.ofNat (48 + n % 10) :: toDigitsRev f (n / 10)

/-- Decimal rendering of a natural number (the serialization of the `u64` /
`u32` fields). -/
def natToStr (n : Nat) : String :=
  if n = 0 then "0" else String.mk (toDigitsRev n n).reverse

/-- Modelled from the spec: the serialized form of the public projection —
the repository's API layer that serializes a `ServerConfigPublic` (serde
with `rename_all = "camelCase"` rendered as a flat JSON record) is not part
of the given source.  Per the spec it is a flat record with exactly the two
keys `maxBackupBytes` and `retentionDays`. -/
def serializePublic (p : ServerConfigPublic) : String :=
  "\x7b\"maxBackupBytes\":" ++ natToStr p.max_backup_bytes ++
    ",\"retentionDays\":" ++ natToStr p.retention_days ++ "\x7d"

/-! Sample filesystem states and sources, used by the witnesses. -/

/-- A filesystem in which no path exists. -/
def fsAbsent : String → PathState :=
  fun _ => { path_exists := false, is_file := false,
             openResult := .ok (), readResult := .ok "" }

/-- A filesystem in which every path is an existing directory. -/
def fsDir : String → PathState :=
  fun _ => { path_exists := true, is_file := false,
             openResult := .ok (), readResult := .ok "" }

/-- The well-formed configuration source of the repository's own test. -/
def goodToml : String :=
  "max_backup_bytes = 10000\nretention_days = 100\nbackup_dir = \"backups\"\nio_threads = 4\n"

/-- A well-formed source that additionally holds an unknown key. -/
def extraKeyToml : String :=
  "max_backup_bytes = 10000\nretention_days = 100\nbackup_dir = \"backups\"\nio_threads = 4\nunknown_key = 7\n"

/-- A source missing the `retention_days` key. -/
def missingKeyToml : String :=
  "max_backup_bytes = 10000\nbackup_dir = \"backups\"\nio_threads = 4\n"

/-- A source whose `retention_days` exceeds the `u32` maximum. -/
def overflowToml : String :=
  "max_backup_bytes = 1\nretention_days = 4294967296\nbackup_dir = \"b\"\nio_threads = 4\n"

/-- A filesystem in which every path is a regular file holding `goodToml`. -/
def fsGood : String → PathState :=
  fun _ => { path_exists := true, is_file := true,
             openResult := .ok (), readResult := .ok goodToml }

/-- The configuration the repository's test expects from `goodToml`. -/
def cfgGood : ServerConfig :=
  { max_backup_bytes := 10000, retention_days := 100,
    backup_dir := "backups", io_threads := 4 }

/-- A configuration differing from `cfgGood` only in the two non-public
fields. -/
def cfgAlt : ServerConfig :=
  { max_backup_bytes := 10000, retention_days := 100,
    backup_dir := "elsewhere", io_threads := 8 }

/-- A configuration whose `backup_dir` value coincides with the decimal
rendering of the numeric fields. -/
def cfgClash : ServerConfig :=
  { max_backup_bytes := 100, retention_days := 100,
    backup_dir := "100", io_threads := 100 }

/-- A filesystem in which every path is a regular file holding
`missingKeyToml`. -/
def fsMissing : String → PathState :=
  fun _ => { path_exists := true, is_file := true,
             openResult := .ok (), readResult := .ok missingKeyToml }

/-- A filesystem in which every path is a regular file holding
`extraKeyToml`. -/
def fsExtra : String → PathState :=
  fun _ => { path_exists := true, is_file := true,
             openResult := .ok (), readResult := .ok extraKeyToml }

/-- A filesystem in which every path is a regular file holding
`overflowToml`. -/
def fsOverflow : String → PathState :=
  fun _ => { path_exists := true, is_file := true,
             openResult := .ok (), readResult := .ok overflowToml }

/-- The table `missingKeyToml` parses to. -/
def tblMissing : List (String × TomlValue) :=
  [("max_backup_bytes", .int 10000), ("backup_dir", .str "backups"),
   ("io_threads", .int 4)]

/-- The table `extraKeyToml` parses to. -/
def tblExtra : List (String × TomlValue) :=
  [("max_backup_bytes", .int 10000), ("retention_days", .int 100),
   ("backup_dir", .str "backups"), ("io_threads", .int 4),
   ("unknown_key", .int 7)]

/-- The table `overflowToml` parses to. -/
def tblOverflow : List (String × TomlValue) :=
  [("max_backup_bytes", .int 1), ("retention_days", .int 4294967296),
   ("backup_dir", .str "b"), ("io_threads", .int 4)]

example : toml_from_str goodToml = .ok cfgGood := rfl

example : parseToml missingKeyToml = .ok tblMissing := rfl

example : parseToml extraKeyToml = .ok tblExtra := rfl

example : parseToml overflowToml = .ok tblOverflow := rfl

example :
    toml_from_str extraKeyToml =
      .ok { max_backup_bytes := 10000, retention_days := 100,
            backup_dir := "backups", io_threads := 4 } := rfl

example : toml_from_str missingKeyToml = .error "missing field retention_days" := rfl

example :
    toml_from_str overflowToml =
      .error "invalid value for field retention_days: integer out of range" := rfl

example : ServerConfig.from_file fsGood "/etc/sekursranko.toml" = .ok cfgGood := rfl

/-! Helper lemmas about `hasPre`, `hasSuf` and `classify`. -/

theorem hasPre_app (p t : List Char) : hasPre p (p ++ t) = true := by
  induction p with
  | nil => rfl
  | cons c cs ih => simp [hasPre, ih]

theorem hasPre_app_false (p : List Char) :
    ∀ a t : List Char, hasPre p a = false → hasPre a p = false →
      hasPre p (a ++ t) = false := by
  induction p with
  | nil => intro a t h1 _; simp [hasPre] at h1
  | cons c cs ih =>
    intro a t h1 h2
    cases a with
    | nil => simp [hasPre] at h2
    | cons b bs =>
      by_cases hcb : c = b
      · subst hcb
        simp [hasPre] at h1 h2 ⊢
        exact ih bs t h1 h2
      · simp [hasPre, hcb]

theorem msgNotFound_data (p : String) :
    (msgNotFound p).data =
      "Config file at ".data ++ ((pathDebug p).data ++ " does not exist".data) := by
  simp [msgNotFound, String.data_append, List.append_assoc]

theorem msgNotAFile_data (p : String) :
    (msgNotAFile p).data =
      "Config file at ".data ++ ((pathDebug p).data ++ " is not a file".data) := by
  simp [msgNotAFile, String.data_append, List.append_assoc]

theorem classify_msgNotFound (p : String) :
    classify (msgNotFound p) = some .notFound := by
  have h1 : hasPre "Could not open config file: ".data (msgNotFound p).data = false := by
    rw [msgNotFound_data]; exact hasPre_app_false _ _ _ (by decide) (by decide)
  have h2 : hasPre "Could not read config file: ".data (msgNotFound p).data = false := by
    rw [msgNotFound_data]; exact hasPre_app_false _ _ _ (by decide) (by decide)
  have h3 : hasPre "Could not deserialize config file: ".data (msgNotFound p).data = false := by
    rw [msgNotFound_data]; exact hasPre_app_false _ _ _ (by decide) (by decide)
  have h4 : hasPre "Config file at ".data (msgNotFound p).data = true := by
    rw [msgNotFound_data]; exact hasPre_app _ _
  have h5 : hasSuf " does not exist".data (msgNotFound p).data = true := by
    rw [hasSuf, msgNotFound_data]
    have hrev :
        ("Config file at ".data ++ ((pathDebug p).data ++ " does not exist".data)).reverse =
          " does not exist".data.reverse ++
            ((pathDebug p).data.reverse ++ "Config file at ".data.reverse) := by
      simp [List.reverse_append, List.append_assoc]
    rw [hrev]
    exact hasPre_app _ _
  simp [classify, h1, h2, h3, h4, h5]

theorem classify_msgNotAFile (p : String) :
    classify (msgNotAFile p) = some .notAFile := by
  have h1 : hasPre "Could not open config file: ".data (msgNotAFile p).data = false := by
    rw [msgNotAFile_data]; exact hasPre_app_false _ _ _ (by decide) (by decide)
  have h2 : hasPre "Could not read config file: ".data (msgNotAFile p).data = false := by
    rw [msgNotAFile_data]; exact hasPre_app_false _ _ _ (by decide) (by decide)
  have h3 : hasPre "Could not deserialize config file: ".data (msgNotAFile p).data = false := by
    rw [msgNotAFile_data]; exact hasPre_app_false _ _ _ (by decide) (by decide)
  have h4 : hasPre "Config file at ".data (msgNotAFile p).data = true := by
    rw [msgNotAFile_data]; exact hasPre_app _ _
  have hrev :
      ("Config file at ".data ++ ((pathDebug p).data ++ " is not a file".data)).reverse =
        " is not a file".data.reverse ++
          ((pathDebug p).data.reverse ++ "Config file at ".data.reverse) := by
    simp [List.reverse_append, List.append_assoc]
  have h5 : hasSuf " does not exist".data (msgNotAFile p).data = false := by
    rw [hasSuf, msgNotAFile_data, hrev]
    exact hasPre_app_false _ _ _ (by decide) (by decide)
  have h6 : hasSuf " is not a file".data (msgNotAFile p).data = true := by
    rw [hasSuf, msgNotAFile_data, hrev]
    exact hasPre_app _ _
  simp [classify, h1, h2, h3, h4, h5, h6]

theorem classify_msgIoOpen (e : String) :
    classify (msgIoOpen e) = some .ioError := by
  have h1 : hasPre "Could not open config file: ".data (msgIoOpen e).data = true := by
    rw [show (msgIoOpen e).data = "Could not open config file: ".data ++ e.data by
      simp [msgIoOpen, String.data_append]]
    exact hasPre_app _ _
  simp [classify, h1]

theorem classify_msgIoRead (e : String) :
    classify (msgIoRead e) = some .ioError := by
  have hd : (msgIoRead e).data = "Could not read config file: ".data ++ e.data := by
    simp [msgIoRead, String.data_append]
  have h1 : hasPre "Could not open config file: ".data (msgIoRead e).data = false := by
    rw [hd]; exact hasPre_app_false _ _ _ (by decide) (by decide)
  have h2 : hasPre "Could not read config file: ".data (msgIoRead e).data = true := by
    rw [hd]; exact hasPre_app _ _
  simp [classify, h1, h2]

theorem classify_msgParse (e : String) :
    classify (msgParse e) = some .parseError := by
  have hd : (msgParse e).data = "Could not deserialize config file: ".data ++ e.data := by
    simp [msgParse, String.data_append]
  have h1 : hasPre "Could not open config file: ".data (msgParse e).data = false := by
    rw [hd]; exact hasPre_app_false _ _ _ (by decide) (by decide)
  have h2 : hasPre "Could not read config file: ".data (msgParse e).data = false := by
    rw [hd]; exact hasPre_app_false _ _ _ (by decide) (by decide)
  have h3 : hasPre "Could not deserialize config file: ".data (msgParse e).data = true := by
    rw [hd]; exact hasPre_app _ _
  simp [classify, h1, h2, h3]

/-! Helper lemmas about the branches of `from_file`. -/

theorem from_file_notFound (fs : String → PathState) (p : String)
    (h : (fs p).path_exists = false) :
    ServerConfig.from_file fs p = .error (msgNotFound p) := by
  simp [ServerConfig.from_file, h]

theorem from_file_notAFile (fs : String → PathState) (p : String)
    (he : (fs p).path_exists = true) (hf : (fs p).is_file = false) :
    ServerConfig.from_file fs p = .error (msgNotAFile p) := by
  simp [ServerConfig.from_file, he, hf]

theorem from_file_open_err (fs : String → PathState) (p : String) (e : String)
    (he : (fs p).path_exists = true) (hf : (fs p).is_file = true)
    (ho : (fs p).openResult = .error e) :
    ServerConfig.from_file fs p = .error (msgIoOpen e) := by
  simp [ServerConfig.from_file, he, hf, ho]

theorem from_file_read_err (fs : String → PathState) (p : String) (e : String)
    (he : (fs p).path_exists = true) (hf : (fs p).is_file = true)
    (ho : (fs p).openResult = .ok ()) (hr : (fs p).readResult = .error e) :
    ServerConfig.from_file fs p = .error (msgIoRead e) := by
  simp [ServerConfig.from_file, he, hf, ho, hr]

theorem from_file_parse_err (fs : String → PathState) (p : String) (s e : String)
    (he : (fs p).path_exists = true) (hf : (fs p).is_file = true)
    (ho : (fs p).openResult = .ok ()) (hr : (fs p).readResult = .ok s)
    (hp : toml_from_str s = .error e) :
    ServerConfig.from_file fs p = .error (msgParse e) := by
  simp [ServerConfig.from_file, he, hf, ho, hr, hp]

theorem from_file_success (fs : String → PathState) (p : String) (s : String)
    (c : ServerConfig)
    (he : (fs p).path_exists = true) (hf : (fs p).is_file = true)
    (ho : (fs p).openResult = .ok ()) (hr : (fs p).readResult = .ok s)
    (hp : toml_from_str s = .ok c) :
    ServerConfig.from_file fs p = .ok c := by
  simp [ServerConfig.from_file, he, hf, ho, hr, hp]

theorem from_file_ok_inv (fs : String → PathState) (p : String) (c : ServerConfig)
    (h : ServerConfig.from_file fs p = .ok c) :
    ∃ s, (fs p).readResult = .ok s ∧ toml_from_str s = .ok c := by
  by_cases he : (fs p).path_exists = true
  · by_cases hf : (fs p).is_file = true
    · cases ho : (fs p).openResult with
      | error eo =>
        rw [from_file_open_err fs p eo he hf ho] at h
        exact Except.noConfusion h
      | ok u =>
        obtain ⟨⟩ := u
        cases hr : (fs p).readResult with
        | error er =>
          rw [from_file_read_err fs p er he hf ho hr] at h
          exact Except.noConfusion h
        | ok s =>
          cases hp : toml_from_str s with
          | error ep =>
            rw [from_file_parse_err fs p s ep he hf ho hr hp] at h
            exact Except.noConfusion h
          | ok c' =>
            rw [from_file_success fs p s c' he hf ho hr hp] at h
            injection h with hcc
            subst hcc
            exact ⟨s, rfl, hp⟩
    · rw [Bool.not_eq_true] at hf
      rw [from_file_notAFile fs p he hf] at h
      exact Except.noConfusion h
  · rw [Bool.not_eq_true] at he
    rw [from_file_notFound fs p he] at h
    exact Except.noConfusion h

/-! Helper lemmas about the serde-style field extraction. -/

theorem getNat_missing (name : String) (bound : Int) (tbl : List (String × TomlValue))
    (h : tblLookup name tbl = none) :
    getNatField name bound tbl = .error ("missing field " ++ name) := by
  simp [getNatField, h]

theorem getNat_wrongType (name : String) (bound : Int) (tbl : List (String × TomlValue))
    (v : TomlValue) (h : tblLookup name tbl = some v) (hv : ∀ n, v ≠ .int n) :
    ∃ e, getNatField name bound tbl = .error e := by
  cases v with
  | int n => exact absurd rfl (hv n)
  | str s => exact ⟨"invalid type for field " ++ name, by simp [getNatField, h]⟩
  | bool b => exact ⟨"invalid type for field " ++ name, by simp [getNatField, h]⟩

theorem getNat_outOfRange (name : String) (bound : Int) (tbl : List (String × TomlValue))
    (n : Int) (h : tblLookup name tbl = some (.int n)) (hn : ¬(0 ≤ n ∧ n < bound)) :
    getNatField name bound tbl =
      .error ("invalid value for field " ++ name ++ ": integer out of range") := by
  simp [getNatField, h, hn]

theorem getNat_found (name : String) (bound : Int) (tbl : List (String × TomlValue))
    (n : Int) (h : tblLookup name tbl = some (.int n)) (h0 : 0 ≤ n) (h1 : n < bound) :
    getNatField name bound tbl = .ok n.toNat := by
  simp [getNatField, h]
  exact ⟨h0, h1⟩

theorem getStr_missing (name : String) (tbl : List (String × TomlValue))
    (h : tblLookup name tbl = none) :
    getStrField name tbl = .error ("missing field " ++ name) := by
  simp [getStrField, h]

theorem getStr_wrongType (name : String) (tbl : List (String × TomlValue))
    (v : TomlValue) (h : tblLookup name tbl = some v) (hv : ∀ s, v ≠ .str s) :
    ∃ e, getStrField name tbl = .error e := by
  cases v with
  | int n => exact ⟨"invalid type for field " ++ name, by simp [getStrField, h]⟩
  | str s => exact absurd rfl (hv s)
  | bool b => exact ⟨"invalid type for field " ++ name, by simp [getStrField, h]⟩

theorem getStr_found (name : String) (tbl : List (String × TomlValue))
    (s : String) (h : tblLookup name tbl = some (.str s)) :
    getStrField name tbl = .ok s := by
  simp [getStrField, h]

theorem deserialize_err_mb (tbl : List (String × TomlValue)) (e : String)
    (h : getNatField "max_backup_bytes" (2 ^ 64 : Int) tbl = .error e) :
    deserializeConfig tbl = .error e := by
  unfold deserializeConfig
  rw [h]

theorem deserialize_err_rd (tbl : List (String × TomlValue)) (e : String)
    (h : getNatField "retention_days" (2 ^ 32 : Int) tbl = .error e) :
    ∃ e', deserializeConfig tbl = .error e' := by
  cases h0 : getNatField "max_backup_bytes" (2 ^ 64 : Int) tbl with
  | error e0 => exact ⟨e0, by unfold deserializeConfig; rw [h0]⟩
  | ok mb => exact ⟨e, by unfold deserializeConfig; rw [h0, h]⟩

theorem deserialize_err_bd (tbl : List (String × TomlValue)) (e : String)
    (h : getStrField "backup_dir" tbl = .error e) :
    ∃ e', deserializeConfig tbl = .error e' := by
  cases h0 : getNatField "max_backup_bytes" (2 ^ 64 : Int) tbl with
  | error e0 => exact ⟨e0, by unfold deserializeConfig; rw [h0]⟩
  | ok mb =>
    cases h1 : getNatField "retention_days" (2 ^ 32 : Int) tbl with
    | error e1 => exact ⟨e1, by unfold deserializeConfig; rw [h0, h1]⟩
    | ok rd => exact ⟨e, by unfold deserializeConfig; rw [h0, h1, h]⟩

theorem deserialize_err_io (tbl : List (String × TomlValue)) (e : String)
    (h : getNatField "io_threads" (2 ^ 64 : Int) tbl = .error e) :
    ∃ e', deserializeConfig tbl = .error e' := by
  cases h0 : getNatField "max_backup_bytes" (2 ^ 64 : Int) tbl with
  | error e0 => exact ⟨e0, by unfold deserializeConfig; rw [h0]⟩
  | ok mb =>
    cases h1 : getNatField "retention_days" (2 ^ 32 : Int) tbl with
    | error e1 => exact ⟨e1, by unfold deserializeConfig; rw [h0, h1]⟩
    | ok rd =>
      cases h2 : getStrField "backup_dir" tbl with
      | error e2 => exact ⟨e2, by unfold deserializeConfig; rw [h0, h1, h2]⟩
      | ok bd => exact ⟨e, by unfold deserializeConfig; rw [h0, h1, h2, h]⟩

theorem deserialize_found (tbl : List (String × TomlValue)) (m r i : Int) (b : String)
    (hm : tblLookup "max_backup_bytes" tbl = some (.int m))
    (hm0 : 0 ≤ m) (hm1 : m < (2 ^ 64 : Int))
    (hr : tblLookup "retention_days" tbl = some (.int r))
    (hr0 : 0 ≤ r) (hr1 : r < (2 ^ 32 : Int))
    (hb : tblLookup "backup_dir" tbl = some (.str b))
    (hi : tblLookup "io_threads" tbl = some (.int i))
    (hi0 : 0 ≤ i) (hi1 : i < (2 ^ 64 : Int)) :
    deserializeConfig tbl =
      .ok { max_backup_bytes := m.toNat, retention_days := r.toNat,
            backup_dir := b, io_threads := i.toNat } := by
  unfold deserializeConfig
  rw [getNat_found _ _ _ _ hm hm0 hm1, getNat_found _ _ _ _ hr hr0 hr1,
    getStr_found _ _ _ hb, getNat_found _ _ _ _ hi hi0 hi1]

/-! Helper lemmas about the decimal rendering and substring containment. -/

theorem toDigitsRev_isDigit :
    ∀ f n c, c ∈ toDigitsRev f n → c.isDigit = true := by
  intro f
  induction f with
  | zero => intro n c h; simp [toDigitsRev] at h
  | succ f ih =>
    intro n c h
    rw [toDigitsRev] at h
    by_cases hn : n = 0
    · rw [if_pos hn] at h; simp at h
    · rw [if_neg hn] at h
      rcases List.mem_cons.mp h with h1 | h2
      · subst h1
        have hm : n % 10 < 10 := Nat.mod_lt n (by norm_num)
        set m := n % 10 with hmdef
        interval_cases m <;> decide
      · exact ih _ _ h2

theorem natToStr_isDigit (n : Nat) (c : Char) (h : c ∈ (natToStr n).data) :
    c.isDigit = true := by
  rw [natToStr] at h
  by_cases hn : n = 0
  · rw [if_pos hn] at h
    rw [show ("0" : String).data = ['0'] from rfl] at h
    rcases List.mem_singleton.mp h with rfl
    decide
  · rw [if_neg hn] at h
    rw [show (String.mk (toDigitsRev n n).reverse).data = (toDigitsRev n n).reverse from rfl] at h
    exact toDigitsRev_isDigit n n c (List.mem_reverse.mp h)

theorem mem_of_strContains (a b : String) (c : Char) (h : strContains a b)
    (hc : c ∈ b.data) : c ∈ a.data := by
  obtain ⟨x, y, hxy⟩ := h
  rw [hxy]
  simp [List.mem_append]
  exact Or.inr (Or.inl hc)

theorem serializePublic_no_underscore (q : ServerConfigPublic) :
    ¬ ('_' ∈ (serializePublic q).data) := by
  intro h
  rw [serializePublic] at h
  simp only [String.data_append, List.mem_append] at h
  rcases h with (((h | h) | h) | h) | h
  · exact absurd h (by decide)
  · exact absurd (natToStr_isDigit _ _ h) (by decide)
  · exact absurd h (by decide)
  · exact absurd (natToStr_isDigit _ _ h) (by decide)
  · exact absurd h (by decide)

/-! The claims. -/

/-- C1: for every `ServerConfig` value `v`, the projection
`ServerConfigPublic::from(&v)` copies exactly `max_backup_bytes` and
`retention_days` from `v`; it depends on no other field of `v` (so
`backup_dir` and `io_threads` are omitted unconditionally, whatever their
values), and a `ServerConfigPublic` has no field beyond those two (two
values agreeing on them are equal).  The projection is a total, pure Lean
function, hence infallible. -/
theorem claim_C1 :
    (∀ v : ServerConfig,
      (ServerConfigPublic.fromConfig v).max_backup_bytes = v.max_backup_bytes ∧
      (ServerConfigPublic.fromConfig v).retention_days = v.retention_days) ∧
    (∀ v w : ServerConfig, v.max_backup_bytes = w.max_backup_bytes →
      v.retention_days = w.retention_days →
      ServerConfigPublic.fromConfig v = ServerConfigPublic.fromConfig w) ∧
    (∀ p q : ServerConfigPublic, p.max_backup_bytes = q.max_backup_bytes →
      p.retention_days = q.retention_days → p = q) := by
  refine ⟨fun v => ⟨rfl, rfl⟩, fun v w h1 h2 => ?_, fun p q h1 h2 => ?_⟩
  · simp [ServerConfigPublic.fromConfig, h1, h2]
  · cases p; cases q; cases h1; cases h2; rfl

/-- Witness for C1 at concrete inputs: `cfgGood` and `cfgAlt` differ only in
`backup_dir` and `io_threads` and project to the same public value. -/
theorem claim_C1_witness :
    (ServerConfigPublic.fromConfig cfgGood).max_backup_bytes = cfgGood.max_backup_bytes ∧
    (ServerConfigPublic.fromConfig cfgGood).retention_days = cfgGood.retention_days ∧
    ServerConfigPublic.fromConfig cfgGood = ServerConfigPublic.fromConfig cfgAlt :=
  ⟨(claim_C1.1 cfgGood).1, (claim_C1.1 cfgGood).2,
   claim_C1.2.1 cfgGood cfgAlt rfl rfl⟩

/-- C2: `from_file` performs its checks in a fixed, short-circuiting order —
existence, then regular-file, then open, then read, then parse — so the
earliest failing check determines the error, whatever the later fields of
the path's state hold.  In particular an existing directory (exists, not a
regular file) yields `NotAFile`, not `NotFound` and not `ParseError`. -/
theorem claim_C2 (fs : String → PathState) (p : String) :
    ((fs p).path_exists = false →
      ServerConfig.from_file fs p = .error (msgNotFound p) ∧
      classify (msgNotFound p) = some .notFound) ∧
    ((fs p).path_exists = true → (fs p).is_file = false →
      ServerConfig.from_file fs p = .error (msgNotAFile p) ∧
      classify (msgNotAFile p) = some .notAFile ∧
      classify (msgNotAFile p) ≠ some .notFound ∧
      classify (msgNotAFile p) ≠ some .parseError) ∧
    (∀ e, (fs p).path_exists = true → (fs p).is_file = true →
      (fs p).openResult = .error e →
      ServerConfig.from_file fs p = .error (msgIoOpen e) ∧
      classify (msgIoOpen e) = some .ioError) ∧
    (∀ e, (fs p).path_exists = true → (fs p).is_file = true →
      (fs p).openResult = .ok () → (fs p).readResult = .error e →
      ServerConfig.from_file fs p = .error (msgIoRead e) ∧
      classify (msgIoRead e) = some .ioError) ∧
    (∀ s e, (fs p).path_exists = true → (fs p).is_file = true →
      (fs p).openResult = .ok () → (fs p).readResult = .ok s →
      toml_from_str s = .error e →
      ServerConfig.from_file fs p = .error (msgParse e) ∧
      classify (msgParse e) = some .parseError) := by
  refine ⟨fun h => ⟨from_file_notFound fs p h, classify_msgNotFound p⟩,
    fun he hf => ⟨from_file_notAFile fs p he hf, classify_msgNotAFile p, ?_, ?_⟩,
    fun e he hf ho => ⟨from_file_open_err fs p e he hf ho, classify_msgIoOpen e⟩,
    fun e he hf ho hr => ⟨from_file_read_err fs p e he hf ho hr, classify_msgIoRead e⟩,
    fun s e he hf ho hr hp => ⟨from_file_parse_err fs p s e he hf ho hr hp, classify_msgParse e⟩⟩
  · rw [classify_msgNotAFile p]; decide
  · rw [classify_msgNotAFile p]; decide

/-- Witness for C2: a nonexistent path yields the not-found error and an
existing directory yields the not-a-file error, classified accordingly. -/
theorem claim_C2_witness :
    (ServerConfig.from_file fsAbsent "/nope" = .error (msgNotFound "/nope") ∧
      classify (msgNotFound "/nope") = some .notFound) ∧
    (ServerConfig.from_file fsDir "/bin" = .error (msgNotAFile "/bin") ∧
      classify (msgNotAFile "/bin") = some .notAFile ∧
      classify (msgNotAFile "/bin") ≠ some .notFound ∧
      classify (msgNotAFile "/bin") ≠ some .parseError) :=
  ⟨(claim_C2 fsAbsent "/nope").1 rfl, (claim_C2 fsDir "/bin").2.1 rfl rfl⟩

/-- C3: every failure of `from_file` is a string error message that the
classifier assigns exactly one of the four kinds `notFound`, `notAFile`,
`ioError`, `parseError`. -/
theorem claim_C3 (fs : String → PathState) (p : String) (e : String)
    (h : ServerConfig.from_file fs p = .error e) :
    ∃ k, classify e = some k ∧ ∀ k', classify e = some k' → k' = k := by
  have main : ∃ k, classify e = some k := by
    by_cases he : (fs p).path_exists = true
    · by_cases hf : (fs p).is_file = true
      · cases ho : (fs p).openResult with
        | error eo =>
          rw [from_file_open_err fs p eo he hf ho] at h
          injection h with h'
          rw [← h']
          exact ⟨_, classify_msgIoOpen eo⟩
        | ok u =>
          obtain ⟨⟩ := u
          cases hr : (fs p).readResult with
          | error er =>
            rw [from_file_read_err fs p er he hf ho hr] at h
            injection h with h'
            rw [← h']
            exact ⟨_, classify_msgIoRead er⟩
          | ok s =>
            cases hp : toml_from_str s with
            | error ep =>
              rw [from_file_parse_err fs p s ep he hf ho hr hp] at h
              injection h with h'
              rw [← h']
              exact ⟨_, classify_msgParse ep⟩
            | ok c =>
              rw [from_file_success fs p s c he hf ho hr hp] at h
              exact Except.noConfusion h
      · rw [Bool.not_eq_true] at hf
        rw [from_file_notAFile fs p he hf] at h
        injection h with h'
        rw [← h']
        exact ⟨_, classify_msgNotAFile p⟩
    · rw [Bool.not_eq_true] at he
      rw [from_file_notFound fs p he] at h
      injection h with h'
      rw [← h']
      exact ⟨_, classify_msgNotFound p⟩
  obtain ⟨k, hk⟩ := main
  refine ⟨k, hk, fun k' hk' => ?_⟩
  rw [hk] at hk'
  injection hk' with h''
  exact h''.symm

/-- Witness for C3 at a concrete failing load. -/
theorem claim_C3_witness :
    ∃ k, classify (msgNotFound "/nope") = some k ∧
      ∀ k', classify (msgNotFound "/nope") = some k' → k' = k :=
  claim_C3 fsAbsent "/nope" (msgNotFound "/nope") rfl

/-- C5: for every path with no filesystem entry, `from_file` returns the
not-found error, whose message contains the debug rendering of the path
(quoted and escaped), and which classifies as `NotFound`. -/
theorem claim_C5 (fs : String → PathState) (p : String)
    (h : (fs p).path_exists = false) :
    ServerConfig.from_file fs p = .error (msgNotFound p) ∧
    strContains (msgNotFound p) (pathDebug p) ∧
    classify (msgNotFound p) = some .notFound :=
  ⟨from_file_notFound fs p h,
   ⟨"Config file at ".data, " does not exist".data, by
      simp [msgNotFound, String.data_append, List.append_assoc]⟩,
   classify_msgNotFound p⟩

/-- Witness for C5 at a concrete nonexistent path. -/
theorem claim_C5_witness :
    ServerConfig.from_file fsAbsent "/no/such/file" = .error (msgNotFound "/no/such/file") ∧
    strContains (msgNotFound "/no/such/file") (pathDebug "/no/such/file") ∧
    classify (msgNotFound "/no/such/file") = some .notFound :=
  claim_C5 fsAbsent "/no/such/file" rfl

/-- C7: loading is deterministic — two runs of `from_file` (over possibly
different filesystems and paths) whose reads return identical file contents
and which both succeed yield equal `ServerConfig` values, equality being the
structure's value equality. -/
theorem claim_C7 (fs1 fs2 : String → PathState) (p1 p2 : String)
    (c1 c2 : ServerConfig)
    (h1 : ServerConfig.from_file fs1 p1 = .ok c1)
    (h2 : ServerConfig.from_file fs2 p2 = .ok c2)
    (hsame : (fs1 p1).readResult = (fs2 p2).readResult) : c1 = c2 := by
  obtain ⟨s1, hr1, ht1⟩ := from_file_ok_inv fs1 p1 c1 h1
  obtain ⟨s2, hr2, ht2⟩ := from_file_ok_inv fs2 p2 c2 h2
  rw [hsame, hr2] at hr1
  injection hr1 with hs
  rw [hs] at ht2
  rw [ht1] at ht2
  injection ht2

/-- Witness for C7: two loads of the same well-formed contents agree. -/
theorem claim_C7_witness : cfgGood = cfgGood :=
  claim_C7 fsGood fsGood "/a" "/b" cfgGood cfgGood rfl rfl rfl

/-- C8: `from_file` is a total function into a classified result: on every
filesystem and path the outcome is either a `ServerConfig` or an error
message carrying one of the four kinds — never anything else (the embedding
has no panic or abort outcome, matching the loader's propagation policy). -/
theorem claim_C8 (fs : String → PathState) (p : String) :
    (∃ c, ServerConfig.from_file fs p = .ok c) ∨
    (∃ e, ServerConfig.from_file fs p = .error e ∧ ∃ k, classify e = some k) := by
  by_cases he : (fs p).path_exists = true
  · by_cases hf : (fs p).is_file = true
    · cases ho : (fs p).openResult with
      | error eo =>
        exact Or.inr ⟨msgIoOpen eo, from_file_open_err fs p eo he hf ho,
          _, classify_msgIoOpen eo⟩
      | ok u =>
        obtain ⟨⟩ := u
        cases hr : (fs p).readResult with
        | error er =>
          exact Or.inr ⟨msgIoRead er, from_file_read_err fs p er he hf ho hr,
            _, classify_msgIoRead er⟩
        | ok s =>
          cases hp : toml_from_str s with
          | error ep =>
            exact Or.inr ⟨msgParse ep, from_file_parse_err fs p s ep he hf ho hr hp,
              _, classify_msgParse ep⟩
          | ok c =>
            exact Or.inl ⟨c, from_file_success fs p s c he hf ho hr hp⟩
    · rw [Bool.not_eq_true] at hf
      exact Or.inr ⟨msgNotAFile p, from_file_notAFile fs p he hf,
        _, classify_msgNotAFile p⟩
  · rw [Bool.not_eq_true] at he
    exact Or.inr ⟨msgNotFound p, from_file_notFound fs p he,
      _, classify_msgNotFound p⟩

/-- Helper: when the deserialization of the parsed table fails, the load
fails at the parse stage: `toml_from_str` returns an error and never a
config, and `from_file` wraps the error into a `ParseError` message. -/
theorem load_parse_fail (fs : String → PathState) (p s : String)
    (tbl : List (String × TomlValue))
    (hex : (fs p).path_exists = true) (hf : (fs p).is_file = true)
    (hop : (fs p).openResult = .ok ()) (hrd : (fs p).readResult = .ok s)
    (hparse : parseToml s = .ok tbl) (e : String)
    (hde : deserializeConfig tbl = .error e) :
    (∃ e', toml_from_str s = .error e') ∧ (∀ c, toml_from_str s ≠ .ok c) ∧
    (∃ e', ServerConfig.from_file fs p = .error e' ∧
      classify e' = some .parseError) := by
  have hts : toml_from_str s = .error e := by
    unfold toml_from_str
    rw [hparse]
    exact hde
  refine ⟨⟨e, hts⟩, fun c hc => ?_,
    msgParse e, from_file_parse_err fs p s e hex hf hop hrd hts,
    classify_msgParse e⟩
  rw [hts] at hc
  exact Except.noConfusion hc

/-- C4: a source whose parsed table misses any one of the four required
keys, or binds one of them to a value of the wrong type, never yields a
`ServerConfig`: `toml_from_str` returns an error (no partially-populated
result exists), and `from_file` on a file with those contents fails with a
message classified as `ParseError`. -/
theorem claim_C4 (fs : String → PathState) (p s : String)
    (tbl : List (String × TomlValue))
    (hex : (fs p).path_exists = true) (hf : (fs p).is_file = true)
    (hop : (fs p).openResult = .ok ()) (hrd : (fs p).readResult = .ok s)
    (hparse : parseToml s = .ok tbl)
    (hbad :
      tblLookup "max_backup_bytes" tbl = none ∨
      tblLookup "retention_days" tbl = none ∨
      tblLookup "backup_dir" tbl = none ∨
      tblLookup "io_threads" tbl = none ∨
      (∃ v, tblLookup "max_backup_bytes" tbl = some v ∧ ∀ n, v ≠ .int n) ∨
      (∃ v, tblLookup "retention_days" tbl = some v ∧ ∀ n, v ≠ .int n) ∨
      (∃ v, tblLookup "backup_dir" tbl = some v ∧ ∀ s', v ≠ .str s') ∨
      (∃ v, tblLookup "io_threads" tbl = some v ∧ ∀ n, v ≠ .int n)) :
    (∃ e, toml_from_str s = .error e) ∧ (∀ c, toml_from_str s ≠ .ok c) ∧
    (∃ e, ServerConfig.from_file fs p = .error e ∧
      classify e = some .parseError) := by
  obtain ⟨e, hde⟩ : ∃ e, deserializeConfig tbl = .error e := by
    rcases hbad with h | h | h | h | ⟨v, hv, hvn⟩ | ⟨v, hv, hvn⟩ | ⟨v, hv, hvn⟩ | ⟨v, hv, hvn⟩
    · exact ⟨_, deserialize_err_mb tbl _ (getNat_missing _ _ tbl h)⟩
    · exact deserialize_err_rd tbl _ (getNat_missing _ _ tbl h)
    · exact deserialize_err_bd tbl _ (getStr_missing _ tbl h)
    · exact deserialize_err_io tbl _ (getNat_missing _ _ tbl h)
    · obtain ⟨e0, he0⟩ := getNat_wrongType _ (2 ^ 64 : Int) tbl v hv hvn
      exact ⟨_, deserialize_err_mb tbl _ he0⟩
    · obtain ⟨e0, he0⟩ := getNat_wrongType _ (2 ^ 32 : Int) tbl v hv hvn
      exact deserialize_err_rd tbl _ he0
    · obtain ⟨e0, he0⟩ := getStr_wrongType _ tbl v hv hvn
      exact deserialize_err_bd tbl _ he0
    · obtain ⟨e0, he0⟩ := getNat_wrongType _ (2 ^ 64 : Int) tbl v hv hvn
      exact deserialize_err_io tbl _ he0
  exact load_parse_fail fs p s tbl hex hf hop hrd hparse e hde

/-- Witness for C4: a source missing `retention_days`. -/
theorem claim_C4_witness :
    (∃ e, toml_from_str missingKeyToml = .error e) ∧
    (∀ c, toml_from_str missingKeyToml ≠ .ok c) ∧
    (∃ e, ServerConfig.from_file fsMissing "/etc/cfg" = .error e ∧
      classify e = some .parseError) :=
  claim_C4 fsMissing "/etc/cfg" missingKeyToml tblMissing rfl rfl rfl rfl rfl
    (Or.inr (Or.inl rfl))

/-- C9: a source whose parsed table binds all four required keys to
well-typed, in-range values — whatever other (unknown) keys the table also
binds — loads successfully, and the resulting `ServerConfig` is determined
by the four bindings alone. -/
theorem claim_C9 (fs : String → PathState) (p s : String)
    (tbl : List (String × TomlValue)) (m r i : Int) (b : String)
    (hex : (fs p).path_exists = true) (hf : (fs p).is_file = true)
    (hop : (fs p).openResult = .ok ()) (hrd : (fs p).readResult = .ok s)
    (hparse : parseToml s = .ok tbl)
    (hm : tblLookup "max_backup_bytes" tbl = some (.int m))
    (hm0 : 0 ≤ m) (hm1 : m < (2 ^ 64 : Int))
    (hr : tblLookup "retention_days" tbl = some (.int r))
    (hr0 : 0 ≤ r) (hr1 : r < (2 ^ 32 : Int))
    (hb : tblLookup "backup_dir" tbl = some (.str b))
    (hi : tblLookup "io_threads" tbl = some (.int i))
    (hi0 : 0 ≤ i) (hi1 : i < (2 ^ 64 : Int)) :
    toml_from_str s =
      .ok { max_backup_bytes := m.toNat, retention_days := r.toNat,
            backup_dir := b, io_threads := i.toNat } ∧
    ServerConfig.from_file fs p =
      .ok { max_backup_bytes := m.toNat, retention_days := r.toNat,
            backup_dir := b, io_threads := i.toNat } := by
  have hd := deserialize_found tbl m r i b hm hm0 hm1 hr hr0 hr1 hb hi hi0 hi1
  have hts : toml_from_str s =
      .ok { max_backup_bytes := m.toNat, retention_days := r.toNat,
            backup_dir := b, io_threads := i.toNat } := by
    unfold toml_from_str
    rw [hparse]
    exact hd
  exact ⟨hts, from_file_success fs p s _ hex hf hop hrd hts⟩

/-- Witness for C9: the well-formed source with an extra unknown key loads
to the same configuration as the repository's test expects. -/
theorem claim_C9_witness :
    toml_from_str extraKeyToml = .ok cfgGood ∧
    ServerConfig.from_file fsExtra "/etc/cfg" = .ok cfgGood :=
  claim_C9 fsExtra "/etc/cfg" extraKeyToml tblExtra 10000 100 4 "backups"
    rfl rfl rfl rfl rfl rfl (by decide) (by decide) rfl (by decide) (by decide)
    rfl rfl (by decide) (by decide)

/-- C10: out-of-range numeric values are rejected, not wrapped — a parsed
table whose `retention_days` is at least `2 ^ 32`, or whose
`max_backup_bytes`, `retention_days` or `io_threads` is negative, makes the
load fail: no `ServerConfig` (in particular none holding a truncated or
modulo-reduced value) is produced, and `from_file` fails with a message
classified as `ParseError`. -/
theorem claim_C10 (fs : String → PathState) (p s : String)
    (tbl : List (String × TomlValue))
    (hex : (fs p).path_exists = true) (hf : (fs p).is_file = true)
    (hop : (fs p).openResult = .ok ()) (hrd : (fs p).readResult = .ok s)
    (hparse : parseToml s = .ok tbl)
    (hbad :
      (∃ r, tblLookup "retention_days" tbl = some (.int r) ∧ (2 ^ 32 : Int) ≤ r) ∨
      (∃ m, tblLookup "max_backup_bytes" tbl = some (.int m) ∧ m < 0) ∨
      (∃ r, tblLookup "retention_days" tbl = some (.int r) ∧ r < 0) ∨
      (∃ i, tblLookup "io_threads" tbl = some (.int i) ∧ i < 0)) :
    (∃ e, toml_from_str s = .error e) ∧ (∀ c, toml_from_str s ≠ .ok c) ∧
    (∃ e, ServerConfig.from_file fs p = .error e ∧
      classify e = some .parseError) := by
  obtain ⟨e, hde⟩ : ∃ e, deserializeConfig tbl = .error e := by
    rcases hbad with ⟨r, hv, hr⟩ | ⟨m, hv, hm⟩ | ⟨r, hv, hr⟩ | ⟨i, hv, hi⟩
    · exact deserialize_err_rd tbl _
        (getNat_outOfRange _ _ tbl r hv (by rintro ⟨-, hlt⟩; omega))
    · exact ⟨_, deserialize_err_mb tbl _
        (getNat_outOfRange _ _ tbl m hv (by rintro ⟨h0, -⟩; omega))⟩
    · exact deserialize_err_rd tbl _
        (getNat_outOfRange _ _ tbl r hv (by rintro ⟨h0, -⟩; omega))
    · exact deserialize_err_io tbl _
        (getNat_outOfRange _ _ tbl i hv (by rintro ⟨h0, -⟩; omega))
  exact load_parse_fail fs p s tbl hex hf hop hrd hparse e hde

/-- Witness for C10: `retention_days = 4294967296` (one past the `u32`
maximum) is rejected. -/
theorem claim_C10_witness :
    (∃ e, toml_from_str overflowToml = .error e) ∧
    (∀ c, toml_from_str overflowToml ≠ .ok c) ∧
    (∃ e, ServerConfig.from_file fsOverflow "/etc/cfg" = .error e ∧
      classify e = some .parseError) :=
  claim_C10 fsOverflow "/etc/cfg" overflowToml tblOverflow rfl rfl rfl rfl rfl
    (Or.inl ⟨4294967296, rfl, by decide⟩)

/-- C6 (counterexample): the serialized projection CAN contain the substring
corresponding to the VALUES of `backup_dir` and `io_threads`: for
`cfgClash`, whose `backup_dir` is the string `"100"` and whose `io_threads`
is `100`, the serialized output contains both value substrings.  This
refutes the "nor their values" part of the claim. -/
theorem claim_C6_counterexample :
    strContains (serializePublic (ServerConfigPublic.fromConfig cfgClash))
      cfgClash.backup_dir ∧
    strContains (serializePublic (ServerConfigPublic.fromConfig cfgClash))
      (natToStr cfgClash.io_threads) :=
  ⟨⟨"\x7b\"maxBackupBytes\":".data, ",\"retentionDays\":100\x7d".data, by rfl⟩,
   ⟨"\x7b\"maxBackupBytes\":".data, ",\"retentionDays\":100\x7d".data, by rfl⟩⟩

/-- C6 (amended): for every `ServerConfig` v, the serialized form of the
projection is the flat record with exactly the two lower-camel-case keys
`maxBackupBytes` and `retentionDays`, and it never contains the field-name
substrings `backup_dir` or `io_threads`; the textual values of those fields,
however, may coincide with the serialized numbers, so value substrings are
not excluded. -/
theorem claim_C6 (v : ServerConfig) :
    serializePublic (ServerConfigPublic.fromConfig v) =
      "\x7b\"maxBackupBytes\":" ++ natToStr v.max_backup_bytes ++
        ",\"retentionDays\":" ++ natToStr v.retention_days ++ "\x7d" ∧
    ¬ strContains (serializePublic (ServerConfigPublic.fromConfig v)) "backup_dir" ∧
    ¬ strContains (serializePublic (ServerConfigPublic.fromConfig v)) "io_threads" ∧
    strContains (serializePublic (ServerConfigPublic.fromConfig v)) "maxBackupBytes" ∧
    strContains (serializePublic (ServerConfigPublic.fromConfig v)) "retentionDays" := by
  refine ⟨rfl, fun h => ?_, fun h => ?_, ?_, ?_⟩
  · exact serializePublic_no_underscore _
      (mem_of_strContains _ _ '_' h (by decide))
  · exact serializePublic_no_underscore _
      (mem_of_strContains _ _ '_' h (by decide))
  · refine ⟨"\x7b\"".data,
      "\":".data ++ ((natToStr v.max_backup_bytes).data ++
        (",\"retentionDays\":".data ++ ((natToStr v.retention_days).data ++
          "\x7d".data))), ?_⟩
    simp only [serializePublic, ServerConfigPublic.fromConfig, String.data_append]
    simp [List.append_assoc]
  · refine ⟨"\x7b\"maxBackupBytes\":".data ++
      ((natToStr v.max_backup_bytes).data ++ ",\"".data),
      "\":".data ++ ((natToStr v.retention_days).data ++ "\x7d".data), ?_⟩
    simp only [serializePublic, ServerConfigPublic.fromConfig, String.data_append]
    simp [List.append_assoc]

/-- Witness for the amended C6 at a concrete configuration. -/
theorem claim_C6_witness :
    serializePublic (ServerConfigPublic.fromConfig cfgGood) =
      "\x7b\"maxBackupBytes\":" ++ natToStr cfgGood.max_backup_bytes ++
        ",\"retentionDays\":" ++ natToStr cfgGood.retention_days ++ "\x7d" ∧
    ¬ strContains (serializePublic (ServerConfigPublic.fromConfig cfgGood)) "backup_dir" ∧
    ¬ strContains (serializePublic (ServerConfigPublic.fromConfig cfgGood)) "io_threads" ∧
    strContains (serializePublic (ServerConfigPublic.fromConfig cfgGood)) "maxBackupBytes" ∧
    strContains (serializePublic (ServerConfigPublic.fromConfig cfgGood)) "retentionDays" :=
  claim_C6 cfgGood

end Sekursranko
